/-
Formal model of the NEAR staking-pool-owner reward-distribution contract
(src/contract/src/lib.rs).

The contract is embedded shallowly:
* u128 / u64 machine integers become Nat; where the Rust code can trap on
  overflow of a fixed-width cast (U256::as_u128) the embedding returns
  Option.none.
* Each contract method becomes a pure function from the persisted contract
  record (plus the relevant pieces of the host environment: predecessor
  account, block timestamp, attached deposit, promise results) to the new
  record together with a description of the outgoing promise, if any.
* A panicking method (assert!/require!/expect/unwrap) is embedded as a
  function returning Option/none: on the NEAR runtime a panic aborts the
  whole function call and rolls back every state mutation the call made, so
  "none" stands for "the persisted state is unchanged".
-/

import Mathlib

/-- 2^128: first value that does not fit in a u128. -/
def U128_LIMIT : Nat := 2 ^ 128

/-- Embeds u128_ratio (src/contract/src/lib.rs:538):
fn u128_ratio(a, num, denom) = (U256::from(a) * U256::from(num) / U256::from(denom)).as_u128().
With a, num < 2^128 the 256-bit product never overflows; U256 division by
zero panics, and as_u128 panics when the quotient does not fit in a u128.
Both panics are embedded as none. -/
def ratioU128 (a num denom : Nat) : Option Nat :=
  if denom = 0 then none
  else if a * num / denom < U128_LIMIT then some (a * num / denom)
  else none

/-- Embeds struct Action (src/contract/src/lib.rs:86): one swap hop. -/
structure SwapAction where
  pool_id : Nat
  token_in : String
  token_out : String
  min_amount_out : Nat
  deriving DecidableEq

/-- Embeds struct Contract (src/contract/src/lib.rs:106): the persisted state. -/
structure Contract where
  staking_pool_account_id : String
  owner_id : String
  usn_contract_id : String
  rewards_received : Nat
  available_rewards : Nat
  last_reward_distribution : Nat
  farm_duration : Nat
  full_rewards_duration : Nat
  farm_id : Nat
  usn_distributed : Nat
  oracle_contract_id : String
  ref_finance_contract_id : String
  wrap_near_contract_id : String
  swap_path : List SwapAction
  wrapped_amount : Nat
  deriving DecidableEq

/-- DEFAULT_FARM_DURATION (src/contract/src/lib.rs:30): 7 days in nanoseconds. -/
def DEFAULT_FARM_DURATION : Nat := 7 * 24 * 60 * 60 * 1000000000

/-- FULL_REWARDS_DURATION (src/contract/src/lib.rs:31): 3 days in nanoseconds. -/
def FULL_REWARDS_DURATION : Nat := 3 * 24 * 60 * 60 * 1000000000

/-- Embeds assert_valid_swap_path (src/contract/src/lib.rs:493): the first
hop must swap in the wrapped-native token, the last hop must swap out the
reward (USN) token, and every stored hop must carry a zero min_amount_out.
first()/last() unwrap panics on an empty path; that is folded into false. -/
def assert_valid_swap_path (c : Contract) : Bool :=
  match c.swap_path.head?, c.swap_path.getLast? with
  | some f, some l =>
      f.token_in == c.wrap_near_contract_id &&
      l.token_out == c.usn_contract_id &&
      c.swap_path.all (fun a => a.min_amount_out == 0)
  | _, _ => false

/-- Embeds Contract::new (src/contract/src/lib.rs:134): builds the initial
state and asserts the swap path is valid (panic embedded as none). -/
def Contract.new (staking_pool_account_id owner_id usn_contract_id : String)
    (farm_id : Nat)
    (oracle_contract_id ref_finance_contract_id wrap_near_contract_id : String)
    (swap_path : List SwapAction) : Option Contract :=
  let this : Contract :=
    { staking_pool_account_id := staking_pool_account_id
      owner_id := owner_id
      usn_contract_id := usn_contract_id
      rewards_received := 0
      available_rewards := 0
      last_reward_distribution := 0
      farm_duration := DEFAULT_FARM_DURATION
      full_rewards_duration := FULL_REWARDS_DURATION
      farm_id := farm_id
      usn_distributed := 0
      oracle_contract_id := oracle_contract_id
      ref_finance_contract_id := ref_finance_contract_id
      wrap_near_contract_id := wrap_near_contract_id
      swap_path := swap_path
      wrapped_amount := 0 }
  if assert_valid_swap_path this then some this else none

/-- The outgoing request chosen by on_get_account. -/
inductive HarvestAction where
  | withdraw (amount : Nat) (unstake_all : Bool)
  | wait
  | unstakeAll
  | nothing
  deriving DecidableEq

/-- Embeds on_get_account (src/contract/src/lib.rs:244). It mutates no
persisted field; it only picks which follow-up promise (if any) to issue,
based on the staking-pool account snapshot. -/
def on_get_account (c : Contract) (unstaked_balance staked_balance : Nat)
    (can_withdraw : Bool) : Contract × HarvestAction :=
  let unstake_all := 0 < staked_balance
  if 0 < unstaked_balance then
    if can_withdraw then (c, HarvestAction.withdraw unstaked_balance unstake_all)
    else (c, HarvestAction.wait)
  else if unstake_all then (c, HarvestAction.unstakeAll)
  else (c, HarvestAction.nothing)

/-- Embeds on_withdraw (src/contract/src/lib.rs:285). promise_success is the
result of is_promise_success(); on failure the require! panic rolls back
(none). On success both counters grow by the withdrawn amount, and the
returned Bool says whether a fresh unstake_all promise is issued. -/
def on_withdraw (c : Contract) (promise_success : Bool) (unstaked_amount : Nat)
    (unstake_all : Bool) : Option (Contract × Bool) :=
  if promise_success then
    some ({ c with
            rewards_received := c.rewards_received + unstaked_amount
            available_rewards := c.available_rewards + unstaked_amount },
          unstake_all)
  else none

/-- Embeds donate (src/contract/src/lib.rs:330). -/
def donate (c : Contract) (attached_deposit : Nat) : Contract :=
  { c with
    rewards_received := c.rewards_received + attached_deposit
    available_rewards := c.available_rewards + attached_deposit }

/-- Embeds set_full_rewards_duration (src/contract/src/lib.rs:299); owner
check panic embedded as none. -/
def set_full_rewards_duration (c : Contract) (predecessor : String)
    (full_rewards_duration_sec : Nat) : Option Contract :=
  if predecessor = c.owner_id then
    some { c with full_rewards_duration := full_rewards_duration_sec * 10 ^ 9 }
  else none

/-- Embeds set_farm_duration (src/contract/src/lib.rs:304). -/
def set_farm_duration (c : Contract) (predecessor : String)
    (farm_duration_sec : Nat) : Option Contract :=
  if predecessor = c.owner_id then
    some { c with farm_duration := farm_duration_sec * 10 ^ 9 }
  else none

/-- Embeds set_swap_path (src/contract/src/lib.rs:309): owner check, assign,
then revalidate; a failed validation panics and rolls the assignment back. -/
def set_swap_path (c : Contract) (predecessor : String)
    (swap_path : List SwapAction) : Option Contract :=
  if predecessor = c.owner_id then
    let c' := { c with swap_path := swap_path }
    if assert_valid_swap_path c' then some c' else none
  else none

/-- Embeds get_near_reward_for_distribution (src/contract/src/lib.rs:315).
now is env::block_timestamp(). The u64 subtraction
block_timestamp - last_reward_distribution traps when the timestamp is
behind the stored one (none); otherwise the time-decayed share of
available_rewards is released, through u128_ratio. -/
def get_near_reward_for_distribution (c : Contract) (now : Nat) : Option Nat :=
  if now < c.last_reward_distribution then none
  else
    let time_diff := now - c.last_reward_distribution
    if c.full_rewards_duration ≤ time_diff then some c.available_rewards
    else ratioU128 c.available_rewards time_diff c.full_rewards_duration

/-- Modelled from the spec: the utils module that declares the oracle price
type is not under src/; per spec section 6 a price is a pair
`{multiplier, decimals}`. -/
structure Price where
  multiplier : Nat
  decimals : Nat
  deriving DecidableEq

/-- Modelled from the spec: an entry of the oracle bundle, an asset
identifier with an optional price. -/
structure AssetOptionalPrice where
  asset_id : String
  price : Option Price
  deriving DecidableEq

/-- Modelled from the spec: the oracle push payload
`{recency_duration_sec, timestamp, prices}` (spec section 6). -/
structure PriceData where
  timestamp : Nat
  recency_duration_sec : Nat
  prices : List AssetOptionalPrice
  deriving DecidableEq

/-- Embeds the HashMap built in oracle_on_call (src/contract/src/lib.rs:407):
entries with a present price are inserted in order, so on duplicate asset
ids the last entry wins; lookup by token id. Price::assert_valid lives in
the missing utils module and the spec states no condition it checks, so it
is modelled as always passing. -/
def lookupPrice (prices : List AssetOptionalPrice) (token : String) : Option Price :=
  (prices.filterMap (fun ap => ap.price.map (fun p => (ap.asset_id, p)))).foldl
    (fun acc kv => if kv.1 = token then some kv.2 else acc) none

/-- Overwrites the last element's min_amount_out, as
actions.last_mut().unwrap().min_amount_out = ... does on the cloned path
(src/contract/src/lib.rs:450). -/
def setLastMinAmountOut (l : List SwapAction) (m : Nat) : List SwapAction :=
  match l with
  | [] => []
  | [a] => [{ a with min_amount_out := m }]
  | a :: rest => a :: setLastMinAmountOut rest m

/-- The promise chain issued by a successful oracle_on_call: wrap
wrap_amount of native currency, send reward wrapped tokens through the swap
venue along actions, and observe the result in on_swap with min_amount_out
and reward as callback arguments. -/
structure SwapRequest where
  actions : List SwapAction
  min_amount_out : Nat
  reward : Nat
  wrap_amount : Nat
  deriving DecidableEq

/-- Decimal-normalisation factor (src/contract/src/lib.rs:430): the side
with fewer decimals is scaled by 10^difference, the other side by 1. -/
def decimalExtra (d other : Nat) : Nat :=
  if d < other then 10 ^ (other - d) else 1

/-- The tail of oracle_on_call (src/contract/src/lib.rs:430): price
conversion, 1% slippage floor, transient overwrite of the cloned path's last
hop, wrap-amount computation and the optimistic state commit. The u128
operations that can overflow-trap (10u128.pow, multiplier * extra,
wrap_amount + 1) are guarded explicitly. -/
def oracle_finish (c : Contract) (now reward : Nat)
    (usn_price wnear_price : Price) : Option (Contract × SwapRequest) :=
  let wnear_extra := decimalExtra wnear_price.decimals usn_price.decimals
  let usn_extra := decimalExtra usn_price.decimals wnear_price.decimals
  if U128_LIMIT ≤ wnear_extra ∨ U128_LIMIT ≤ usn_extra then none
  else if U128_LIMIT ≤ wnear_price.multiplier * wnear_extra ∨
          U128_LIMIT ≤ usn_price.multiplier * usn_extra then none
  else match ratioU128 reward (wnear_price.multiplier * wnear_extra)
             (usn_price.multiplier * usn_extra) with
  | none => none
  | some oracle_amount_out =>
    match ratioU128 oracle_amount_out 99 100 with
    | none => none
    | some m_out =>
      if c.swap_path.isEmpty then none
      else
        let actions := setLastMinAmountOut c.swap_path m_out
        let wrap_amount := (reward - c.wrapped_amount) + 1
        if U128_LIMIT ≤ wrap_amount then none
        else
          some ({ c with
                  available_rewards := c.available_rewards - reward
                  last_reward_distribution := now
                  wrapped_amount := c.wrapped_amount - wrap_amount },
                { actions := actions
                  min_amount_out := m_out
                  reward := reward
                  wrap_amount := wrap_amount })

/-- Embeds oracle_on_call (src/contract/src/lib.rs:387). predecessor is
env::predecessor_account_id() and now is env::block_timestamp(). Every
assert/require/expect/unwrap panic is embedded as none (the whole call rolls
back). On success the returned state has the released reward deducted from
available_rewards, last_reward_distribution advanced to now, and
wrapped_amount decreased (saturating) by the freshly wrapped amount; the
persisted swap_path itself is not touched, only its clone inside the
returned SwapRequest. -/
def oracle_on_call (c : Contract) (predecessor : String) (now : Nat)
    (data : PriceData) : Option (Contract × SwapRequest) :=
  if predecessor ≠ c.oracle_contract_id then none
  else if 90 < data.recency_duration_sec then none
  else if now < data.timestamp then none
  else if 15000000000 < now - data.timestamp then none
  else match get_near_reward_for_distribution c now with
  | none => none
  | some reward =>
    if reward = 0 then none
    else match lookupPrice data.prices c.usn_contract_id,
               lookupPrice data.prices c.wrap_near_contract_id with
    | some usn_price, some wnear_price =>
      oracle_finish c now reward usn_price wnear_price
    | _, _ => none

/-- The callback result of the wrap-and-swap promise chain observed by
on_swap: either the promise errored, or it returned an amount. -/
inductive SwapResult where
  | errored
  | returned (amount : Nat)
  deriving DecidableEq

/-- Embeds on_swap (src/contract/src/lib.rs:338). On a returned amount equal
to the submitted reward it forwards min_amount_out USN via
internal_distribute_usn (which bumps usn_distributed; the returned Bool says
the forwarding promise was issued). On an errored promise or a mismatched
amount it reconciles: wrapped_amount += reward and available_rewards +=
reward. -/
def on_swap (c : Contract) (transfer_amount : SwapResult)
    (min_amount_out reward : Nat) : Contract × Bool :=
  match transfer_amount with
  | SwapResult.returned t =>
    if t = reward then
      ({ c with usn_distributed := c.usn_distributed + min_amount_out }, true)
    else
      ({ c with
         wrapped_amount := c.wrapped_amount + reward
         available_rewards := c.available_rewards + reward }, false)
  | SwapResult.errored =>
    ({ c with
       wrapped_amount := c.wrapped_amount + reward
       available_rewards := c.available_rewards + reward }, false)

/-- Embeds on_usn_balance (src/contract/src/lib.rs:359): with a positive
balance it forwards it via internal_distribute_usn (bumping
usn_distributed); otherwise a no-op. -/
def on_usn_balance (c : Contract) (usn_amount : Nat) : Contract × Bool :=
  if 0 < usn_amount then
    ({ c with usn_distributed := c.usn_distributed + usn_amount }, true)
  else (c, false)

/-- A contract state paired with the rewards of the swap callbacks that an
oracle_on_call has committed but whose on_swap continuation has not yet
fired. The platform delivers each committed callback exactly once. -/
structure Sys where
  contract : Contract
  pending : List Nat

/-- One transition of the orchestrator: any contract entry point or callback
fires against the shared ledger. An oracle_on_call that succeeds adds its
committed reward to the in-flight list; an on_swap callback consumes one
in-flight reward (with any promise outcome). A panicking call (embedded
none) makes no transition, matching the NEAR rollback semantics. -/
inductive Step : Sys → Sys → Prop where
  | getAccount (s : Sys) (u b : Nat) (cw : Bool) :
      Step s ⟨(on_get_account s.contract u b cw).1, s.pending⟩
  | withdraw (s : Sys) (a : Nat) (ua : Bool) (c' : Contract) (issued : Bool)
      (h : on_withdraw s.contract true a ua = some (c', issued)) :
      Step s ⟨c', s.pending⟩
  | donateStep (s : Sys) (d : Nat) :
      Step s ⟨donate s.contract d, s.pending⟩
  | setFullDur (s : Sys) (p : String) (sec : Nat) (c' : Contract)
      (h : set_full_rewards_duration s.contract p sec = some c') :
      Step s ⟨c', s.pending⟩
  | setFarmDur (s : Sys) (p : String) (sec : Nat) (c' : Contract)
      (h : set_farm_duration s.contract p sec = some c') :
      Step s ⟨c', s.pending⟩
  | setPath (s : Sys) (p : String) (path : List SwapAction) (c' : Contract)
      (h : set_swap_path s.contract p path = some c') :
      Step s ⟨c', s.pending⟩
  | oracle (s : Sys) (pred : String) (now : Nat) (data : PriceData)
      (c' : Contract) (req : SwapRequest)
      (h : oracle_on_call s.contract pred now data = some (c', req)) :
      Step s ⟨c', req.reward :: s.pending⟩
  | swapDone (s : Sys) (res : SwapResult) (m : Nat) (l1 l2 : List Nat) (d : Nat)
      (h : s.pending = l1 ++ d :: l2) :
      Step s ⟨(on_swap s.contract res m d).1, l1 ++ l2⟩
  | usnBalance (s : Sys) (amt : Nat) :
      Step s ⟨(on_usn_balance s.contract amt).1, s.pending⟩

/-- States reachable from a freshly constructed contract with no in-flight
swap callback, by any interleaving of the operations. -/
inductive Reachable : Sys → Prop where
  | init (sp o u : String) (fid : Nat) (orc rf wr : String)
      (path : List SwapAction) (c : Contract)
      (h : Contract.new sp o u fid orc rf wr path = some c) :
      Reachable ⟨c, []⟩
  | step (s s' : Sys) (hs : Reachable s) (hstep : Step s s') : Reachable s'

/-- Total native amount committed to in-flight swap callbacks. -/
def pendingSum : List Nat → Nat
  | [] => 0
  | x :: l => x + pendingSum l

/-- The inductive invariant: even counting funds committed to in-flight
swaps, the available pool never exceeds the cumulative harvest. -/
def SysInv (s : Sys) : Prop :=
  s.contract.available_rewards + pendingSum s.pending ≤ s.contract.rewards_received

/-- A concrete freshly-constructed contract used to instantiate theorems. -/
def witnessContract : Contract :=
  { staking_pool_account_id := "pool"
    owner_id := "owner"
    usn_contract_id := "usn"
    rewards_received := 0
    available_rewards := 0
    last_reward_distribution := 0
    farm_duration := DEFAULT_FARM_DURATION
    full_rewards_duration := FULL_REWARDS_DURATION
    farm_id := 0
    usn_distributed := 0
    oracle_contract_id := "orc"
    ref_finance_contract_id := "ref"
    wrap_near_contract_id := "wrap"
    swap_path := [⟨0, "wrap", "usn", 0⟩]
    wrapped_amount := 0 }

/-- A concrete state with a positive in-flight wrapped_amount, about to run a
distribution that will fail on the swap callback. -/
def swapFailC0 : Contract :=
  { witnessContract with
    rewards_received := 900
    available_rewards := 900
    full_rewards_duration := 259200
    wrapped_amount := 5 }

/-- A fresh oracle bundle priced at 500/1 with 8/6 decimals. -/
def swapFailData : PriceData :=
  { timestamp := 86400
    recency_duration_sec := 60
    prices := [⟨"usn", some ⟨1, 6⟩⟩, ⟨"wrap", some ⟨500, 8⟩⟩] }

/-- Run the distribution at time 86400 (it commits reward 300 of the 900
available) and then deliver a failed swap callback; observe the committed
reward and the post-reconciliation ledger. -/
def swapFailRun : Option (Nat × Nat × Nat) :=
  match oracle_on_call swapFailC0 "orc" 86400 swapFailData with
  | some (c1, req) =>
    let c2 := (on_swap c1 SwapResult.errored req.min_amount_out req.reward).1
    some (req.reward, c2.available_rewards, c2.wrapped_amount)
  | none => none

/-- The state oracle_on_call leaves behind in the swapFail scenario. -/
def swapFailMid : Contract :=
  { swapFailC0 with
    available_rewards := 600
    last_reward_distribution := 86400
    wrapped_amount := 0 }

/-- The promise chain oracle_on_call issues in the swapFail scenario. -/
def swapFailReq : SwapRequest :=
  { actions := [⟨0, "wrap", "usn", 1485⟩]
    min_amount_out := 1485
    reward := 300
    wrap_amount := 296 }

/-- A concrete state holding 1_000_000 fully-released available rewards. -/
def convC0 : Contract :=
  { witnessContract with
    rewards_received := 1000000
    available_rewards := 1000000
    full_rewards_duration := 259200 }

/-- The C4 price bundle: USN multiplier 1 with 6 decimals, wNEAR multiplier
500 with 8 decimals. -/
def convData : PriceData :=
  { timestamp := 2592000
    recency_duration_sec := 60
    prices := [⟨"usn", some ⟨1, 6⟩⟩, ⟨"wrap", some ⟨500, 8⟩⟩] }

/-- Run the C4 distribution and observe the committed reward and the
slippage floor placed on the final hop. -/
def convRun : Option (Nat × Nat × List SwapAction) :=
  match oracle_on_call convC0 "orc" 2592000 convData with
  | some (_, req) => some (req.reward, req.min_amount_out, req.actions)
  | none => none

/-- The persisted-state effect of one oracle_on_call receipt: on a panic
(none) the NEAR runtime rolls the call back, leaving the stored contract
unchanged. -/
def oracleStep (c : Contract) (pred : String) (now : Nat)
    (data : PriceData) : Contract :=
  match oracle_on_call c pred now data with
  | some (c', _) => c'
  | none => c

/-- The C5 stale bundle: its timestamp is 20 time-units (2e10 ns) behind the
block timestamp, beyond the 15-unit ceiling. -/
def staleData : PriceData :=
  { timestamp := 0
    recency_duration_sec := 60
    prices := [⟨"usn", some ⟨1, 6⟩⟩, ⟨"wrap", some ⟨500, 8⟩⟩] }

/-- The C6/C10 concrete state: 900 available, three-day ramp of 259200
time-units, last distribution at time 0. -/
def decayC0 : Contract :=
  { witnessContract with
    rewards_received := 900
    available_rewards := 900
    full_rewards_duration := 259200 }

/-- Inversion for ratioU128: a some result is the exact floor quotient, and
the divisor was nonzero. -/
theorem ratioU128_some (a num denom r : Nat) (h : ratioU128 a num denom = some r) :
    r = a * num / denom ∧ 0 < denom := by
  unfold ratioU128 at h
  by_cases hd : denom = 0
  · simp [hd] at h
  · by_cases hf : a * num / denom < U128_LIMIT
    · simp [hd, hf] at h
      exact ⟨h.symm, Nat.pos_of_ne_zero hd⟩
    · simp [hd, hf] at h

/-- ratioU128 succeeds exactly on nonzero divisor and in-range quotient. -/
theorem ratioU128_eq_some (a num denom : Nat) (hd : 0 < denom)
    (hf : a * num / denom < U128_LIMIT) :
    ratioU128 a num denom = some (a * num / denom) := by
  unfold ratioU128
  simp [Nat.pos_iff_ne_zero.mp hd, hf]

/-- The released reward never exceeds the available pool. -/
theorem getNearReward_le (c : Contract) (now r : Nat)
    (h : get_near_reward_for_distribution c now = some r) :
    r ≤ c.available_rewards := by
  unfold get_near_reward_for_distribution at h
  by_cases h1 : now < c.last_reward_distribution
  · simp [h1] at h
  · simp only [h1, if_false] at h
    by_cases h2 : c.full_rewards_duration ≤ now - c.last_reward_distribution
    · simp [h2] at h
      omega
    · simp only [h2, if_false] at h
      obtain ⟨hr, hd⟩ := ratioU128_some _ _ _ _ h
      subst hr
      calc c.available_rewards * (now - c.last_reward_distribution) /
              c.full_rewards_duration
          ≤ c.available_rewards * c.full_rewards_duration /
              c.full_rewards_duration := by
            apply Nat.div_le_div_right
            exact Nat.mul_le_mul_left _ (by omega)
        _ = c.available_rewards := Nat.mul_div_cancel c.available_rewards hd

/-- Inversion for oracle_finish: the success state deducts the reward,
advances the timestamp, consumes wrapped funds, and leaves every other
persisted field (including the stored swap path) untouched; the request
carries that same reward. -/
theorem oracle_finish_spec (c : Contract) (now reward : Nat)
    (usn_price wnear_price : Price) (c' : Contract) (req : SwapRequest)
    (h : oracle_finish c now reward usn_price wnear_price = some (c', req)) :
    req.reward = reward ∧
    c'.available_rewards = c.available_rewards - reward ∧
    c'.last_reward_distribution = now ∧
    req.wrap_amount = (reward - c.wrapped_amount) + 1 ∧
    c'.wrapped_amount = c.wrapped_amount - req.wrap_amount ∧
    c'.rewards_received = c.rewards_received ∧
    c'.swap_path = c.swap_path ∧
    c'.usn_contract_id = c.usn_contract_id ∧
    c'.wrap_near_contract_id = c.wrap_near_contract_id ∧
    c'.usn_distributed = c.usn_distributed ∧
    c'.owner_id = c.owner_id ∧
    c'.farm_duration = c.farm_duration ∧
    c'.full_rewards_duration = c.full_rewards_duration ∧
    req.actions = setLastMinAmountOut c.swap_path req.min_amount_out := by
  unfold oracle_finish at h
  simp only [] at h
  by_cases h1 : U128_LIMIT ≤ decimalExtra wnear_price.decimals usn_price.decimals ∨
      U128_LIMIT ≤ decimalExtra usn_price.decimals wnear_price.decimals
  · rw [if_pos h1] at h
    cases h
  rw [if_neg h1] at h
  by_cases h2 : U128_LIMIT ≤ wnear_price.multiplier * decimalExtra wnear_price.decimals usn_price.decimals ∨
      U128_LIMIT ≤ usn_price.multiplier * decimalExtra usn_price.decimals wnear_price.decimals
  · rw [if_pos h2] at h
    cases h
  rw [if_neg h2] at h
  rcases hr1 : ratioU128 reward
      (wnear_price.multiplier * decimalExtra wnear_price.decimals usn_price.decimals)
      (usn_price.multiplier * decimalExtra usn_price.decimals wnear_price.decimals) with _ | oao
  · simp only [hr1] at h
    cases h
  simp only [hr1] at h
  rcases hr2 : ratioU128 oao 99 100 with _ | m_out
  · simp only [hr2] at h
    cases h
  simp only [hr2] at h
  by_cases h3 : c.swap_path.isEmpty
  · rw [if_pos h3] at h
    cases h
  rw [if_neg h3] at h
  by_cases h4 : U128_LIMIT ≤ (reward - c.wrapped_amount) + 1
  · rw [if_pos h4] at h
    cases h
  rw [if_neg h4] at h
  cases h
  simp

/-- Inversion for a successful oracle_on_call, lifting oracle_finish_spec
through the precondition guards. -/
theorem oracle_ok_spec (c : Contract) (predecessor : String) (now : Nat)
    (data : PriceData) (c' : Contract) (req : SwapRequest)
    (h : oracle_on_call c predecessor now data = some (c', req)) :
    get_near_reward_for_distribution c now = some req.reward ∧
    0 < req.reward ∧
    c'.available_rewards = c.available_rewards - req.reward ∧
    c'.last_reward_distribution = now ∧
    req.wrap_amount = (req.reward - c.wrapped_amount) + 1 ∧
    c'.wrapped_amount = c.wrapped_amount - req.wrap_amount ∧
    c'.rewards_received = c.rewards_received ∧
    c'.swap_path = c.swap_path ∧
    c'.usn_contract_id = c.usn_contract_id ∧
    c'.wrap_near_contract_id = c.wrap_near_contract_id ∧
    c'.usn_distributed = c.usn_distributed ∧
    c'.owner_id = c.owner_id ∧
    c'.farm_duration = c.farm_duration ∧
    c'.full_rewards_duration = c.full_rewards_duration ∧
    req.actions = setLastMinAmountOut c.swap_path req.min_amount_out := by
  unfold oracle_on_call at h
  split at h
  · cases h
  split at h
  · cases h
  split at h
  · cases h
  split at h
  · cases h
  split at h
  · cases h
  next reward hrew =>
  split at h
  · cases h
  next hreward0 =>
  split at h
  next usn_price wnear_price husn hwnear =>
    have hs := oracle_finish_spec c now reward usn_price wnear_price c' req h
    obtain ⟨hr, hrest⟩ := hs
    subst hr
    exact ⟨hrew, by omega, hrest⟩
  · cases h

/-- on_get_account never changes the persisted state. -/
theorem on_get_account_fst (c : Contract) (u b : Nat) (cw : Bool) :
    (on_get_account c u b cw).1 = c := by
  unfold on_get_account
  simp only []
  repeat' split
  all_goals rfl

theorem pendingSum_append (l1 l2 : List Nat) :
    pendingSum (l1 ++ l2) = pendingSum l1 + pendingSum l2 := by
  induction l1 with
  | nil => simp [pendingSum]
  | cons x l ih =>
    simp [pendingSum, ih]
    omega

theorem step_preserves_SysInv (s s' : Sys) (hinv : SysInv s)
    (hstep : Step s s') : SysInv s' := by
  unfold SysInv at hinv ⊢
  cases hstep with
  | getAccount u b cw =>
    rw [on_get_account_fst]
    exact hinv
  | withdraw a ua c' issued h =>
    unfold on_withdraw at h
    rw [if_pos rfl] at h
    cases h
    simp
    omega
  | donateStep d =>
    unfold donate
    simp
    omega
  | setFullDur p sec c' h =>
    unfold set_full_rewards_duration at h
    split at h
    · cases h
      simpa using hinv
    · cases h
  | setFarmDur p sec c' h =>
    unfold set_farm_duration at h
    split at h
    · cases h
      simpa using hinv
    · cases h
  | setPath p path c' h =>
    unfold set_swap_path at h
    simp only [] at h
    split at h
    · split at h
      · cases h
        simpa using hinv
      · cases h
    · cases h
  | oracle pred now data c' req h =>
    obtain ⟨hrew, hpos, havail, hlast, hwa, hwr, hrr, hrest⟩ :=
      oracle_ok_spec _ _ _ _ _ _ h
    have hle := getNearReward_le _ _ _ hrew
    simp only [pendingSum]
    omega
  | swapDone res m l1 l2 d h =>
    have hsum : pendingSum s.pending = pendingSum l1 + (d + pendingSum l2) := by
      rw [h, pendingSum_append]
      simp [pendingSum]
    simp only [pendingSum_append]
    unfold on_swap
    cases res with
    | returned t =>
      by_cases ht : t = d
      · simp [ht]
        omega
      · simp [ht]
        omega
    | errored =>
      simp
      omega
  | usnBalance amt =>
    unfold on_usn_balance
    split
    · simp
      omega
    · simpa using hinv

theorem reachable_SysInv (s : Sys) (h : Reachable s) : SysInv s := by
  induction h with
  | init sp o u fid orc rf wr path c hnew =>
    unfold Contract.new at hnew
    simp only [] at hnew
    split at hnew
    · cases hnew
      unfold SysInv pendingSum
      simp
    · cases hnew
  | step s s' hs hstep ih => exact step_preserves_SysInv s s' ih hstep

/-- C1 (amended): for denom > 0, u128_ratio returns exactly
floor(a*num/denom) whenever that quotient fits in a u128, computed through a
256-bit intermediate so a*num itself never overflows; it traps on
denom == 0 and also traps when the quotient is at least 2^128
(U256::as_u128 overflow). -/
theorem u128_ratio_exact_or_trap (a num denom : Nat) :
    (denom = 0 → ratioU128 a num denom = none) ∧
    (0 < denom → a * num / denom < U128_LIMIT →
      ratioU128 a num denom = some (a * num / denom)) ∧
    (0 < denom → U128_LIMIT ≤ a * num / denom →
      ratioU128 a num denom = none) := by
  refine ⟨?_, ?_, ?_⟩
  · intro h
    unfold ratioU128
    rw [if_pos h]
  · intro h1 h2
    exact ratioU128_eq_some a num denom h1 h2
  · intro h1 h2
    unfold ratioU128
    rw [if_neg (by omega), if_neg (by omega)]

/-- C1 witness: concrete instances of the three arms. -/
theorem u128_ratio_exact_or_trap_witness :
    ratioU128 7 6 2 = some 21 ∧ ratioU128 5 3 0 = none := by
  constructor
  · exact (u128_ratio_exact_or_trap 7 6 2).2.1 (by decide) (by decide)
  · exact (u128_ratio_exact_or_trap 5 3 0).1 rfl

/-- C1 counterexample: at a = 2^128 - 1, num = 2, denom = 1 the divisor is
positive, yet u128_ratio traps because the exact quotient 2^129 - 2 does not
fit in a u128 — refuting "traps only on division by zero, never for any
other input". -/
theorem u128_ratio_overflow_trap_cex :
    (0 : Nat) < 1 ∧ ratioU128 (U128_LIMIT - 1) 2 1 = none := by
  constructor
  · decide
  · decide

/-- C2: in every reachable state of the orchestrator (construction followed
by any interleaving of harvest callbacks, oracle distributions, swap
reconciliations, donations, USN-balance forwarding and administrative
setters), available_rewards never exceeds rewards_received. -/
theorem available_rewards_le_rewards_received (s : Sys) (h : Reachable s) :
    s.contract.available_rewards ≤ s.contract.rewards_received :=
  Nat.le_trans (Nat.le_add_right _ _) (reachable_SysInv s h)

/-- C2 witness: the invariant holds in the freshly constructed state. -/
theorem available_rewards_le_rewards_received_witness :
    (⟨witnessContract, []⟩ : Sys).contract.available_rewards ≤
      (⟨witnessContract, []⟩ : Sys).contract.rewards_received :=
  available_rewards_le_rewards_received ⟨witnessContract, []⟩
    (Reachable.init "pool" "owner" "usn" 0 "orc" "ref" "wrap"
      [⟨0, "wrap", "usn", 0⟩] witnessContract (by decide))

/-- C3 counterexample: the distribution commits D = 300 ≤ R = 900 and the
callback fails; available_rewards is restored to 900, but wrapped_amount
ends at 300 while its pre-attempt value was 5 — an increase of 295, not
D = 300, because oracle_on_call itself had already consumed the in-flight
wrapped balance. This refutes "wrapped_amount has increased by exactly D
relative to its pre-attempt value". -/
theorem swap_fail_wrapped_delta_cex :
    swapFailRun = some (300, 900, 300) ∧
    swapFailC0.wrapped_amount = 5 ∧
    swapFailC0.available_rewards = 900 ∧
    (300 : Nat) ≠ swapFailC0.wrapped_amount + 300 := by
  refine ⟨by decide, by decide, by decide, by decide⟩

/-- C3 (amended): if a distribution trigger commits D from
available_rewards = R and the on_swap callback observes failure (promise
errored, or the returned amount differs from the submitted reward D), the
callback performs wrapped_amount += D and available_rewards += D, so
post-reconciliation available_rewards == R; wrapped_amount increases by
exactly D relative to its value at callback entry (after oracle_on_call's
own decrement of the in-flight wrapped marker), not relative to its value
before the attempt. -/
theorem on_swap_failure_reconciles (c : Contract) (pred : String) (now : Nat)
    (data : PriceData) (c1 : Contract) (req : SwapRequest) (res : SwapResult)
    (m : Nat)
    (hok : oracle_on_call c pred now data = some (c1, req))
    (hfail : ∀ t, res = SwapResult.returned t → t ≠ req.reward) :
    (on_swap c1 res m req.reward).1.available_rewards = c.available_rewards ∧
    (on_swap c1 res m req.reward).1.wrapped_amount =
      c1.wrapped_amount + req.reward := by
  obtain ⟨hrew, hpos, havail, hlast, hwa, hwr, hrr, hrest⟩ :=
    oracle_ok_spec _ _ _ _ _ _ hok
  have hle := getNearReward_le _ _ _ hrew
  unfold on_swap
  cases res with
  | returned t =>
    have hne : ¬ t = req.reward := hfail t rfl
    simp only [if_neg hne]
    constructor
    · show c1.available_rewards + req.reward = c.available_rewards
      omega
    · exact trivial
  | errored =>
    constructor
    · show c1.available_rewards + req.reward = c.available_rewards
      omega
    · show c1.wrapped_amount + req.reward = c1.wrapped_amount + req.reward
      rfl

/-- C3 witness: the amended reconciliation applied to the concrete failed
distribution. -/
theorem on_swap_failure_reconciles_witness :
    (on_swap swapFailMid SwapResult.errored 1485 swapFailReq.reward).1.available_rewards =
      swapFailC0.available_rewards ∧
    (on_swap swapFailMid SwapResult.errored 1485 swapFailReq.reward).1.wrapped_amount =
      swapFailMid.wrapped_amount + swapFailReq.reward :=
  on_swap_failure_reconciles swapFailC0 "orc" 86400 swapFailData swapFailMid
    swapFailReq SwapResult.errored 1485 (by decide) (fun t ht => nomatch ht)

/-- C4 counterexample: with reward 1_000_000, native price 500 (scale 1) and
token price 1 (scale 100), the code's expected output is
ratio(1_000_000, 500, 100) = 5_000_000 — not 5000 — and the slippage floor
is 4_950_000, not 4950. The claim's own expression ratio(1_000_000,500,100)
evaluates to 5_000_000, so its stated values 5000/4950 are off by 1000x. -/
theorem distribution_scenario_cex :
    ratioU128 1000000 500 100 = some 5000000 ∧ (5000000 : Nat) ≠ 5000 ∧
    convRun = some (1000000, 4950000, [⟨0, "wrap", "usn", 4950000⟩]) ∧
    (4950000 : Nat) ≠ 4950 := by
  refine ⟨by decide, by decide, by decide, by decide⟩

/-- C4 (amended): in the scenario with reward-token decimals 6, native
decimals 8 (native_scale = 1, token_scale = 100), reward_amount =
1_000_000, native price multiplier 500 and token price multiplier 1, the
expected swap output is ratio(1_000_000, 500*1, 1*100) = 5_000_000 and the
slippage floor placed on the final hop is
floor(5_000_000*99/100) = 4_950_000. -/
theorem distribution_scenario_amended :
    decimalExtra 8 6 = 1 ∧ decimalExtra 6 8 = 100 ∧
    ratioU128 1000000 (500 * 1) (1 * 100) = some 5000000 ∧
    ratioU128 5000000 99 100 = some 4950000 ∧
    convRun = some (1000000, 4950000, [⟨0, "wrap", "usn", 4950000⟩]) := by
  refine ⟨by decide, by decide, by decide, by decide, by decide⟩

/-- Inversion for a successful oracle_on_call: every precondition checked on
the way to the commit must have held. -/
theorem oracle_ok_preconditions (c : Contract) (pred : String) (now : Nat)
    (data : PriceData) (c' : Contract) (req : SwapRequest)
    (h : oracle_on_call c pred now data = some (c', req)) :
    pred = c.oracle_contract_id ∧
    data.recency_duration_sec ≤ 90 ∧
    data.timestamp ≤ now ∧
    now - data.timestamp ≤ 15000000000 ∧
    (∃ r, get_near_reward_for_distribution c now = some r ∧ 0 < r) ∧
    (∃ p, lookupPrice data.prices c.usn_contract_id = some p) ∧
    (∃ p, lookupPrice data.prices c.wrap_near_contract_id = some p) := by
  unfold oracle_on_call at h
  split at h
  · cases h
  next h1 =>
  split at h
  · cases h
  next h2 =>
  split at h
  · cases h
  next h3 =>
  split at h
  · cases h
  next h4 =>
  split at h
  · cases h
  next reward hrew =>
  split at h
  · cases h
  next hreward0 =>
  split at h
  next usn_price wnear_price husn hwnear =>
    exact ⟨not_not.mp h1, by omega, by omega, by omega,
      ⟨reward, hrew, by omega⟩, ⟨usn_price, husn⟩, ⟨wnear_price, hwnear⟩⟩
  · cases h

/-- C5: oracle_on_call aborts — and by NEAR rollback semantics leaves every
ledger field unchanged — whenever any precondition fails: wrong caller,
recency window above 90 seconds, bundle timestamp in the future, bundle
older than 15 time-units (15e9 ns), zero releasable reward, or a missing
required price entry; the final arm states that an aborted call leaves the
persisted state exactly as it was. -/
theorem oracle_on_call_precondition_aborts (c : Contract) (pred : String)
    (now : Nat) (data : PriceData) :
    (pred ≠ c.oracle_contract_id → oracle_on_call c pred now data = none) ∧
    (90 < data.recency_duration_sec → oracle_on_call c pred now data = none) ∧
    (now < data.timestamp → oracle_on_call c pred now data = none) ∧
    (15000000000 < now - data.timestamp →
      oracle_on_call c pred now data = none) ∧
    (get_near_reward_for_distribution c now = some 0 →
      oracle_on_call c pred now data = none) ∧
    (lookupPrice data.prices c.usn_contract_id = none →
      oracle_on_call c pred now data = none) ∧
    (lookupPrice data.prices c.wrap_near_contract_id = none →
      oracle_on_call c pred now data = none) ∧
    (oracle_on_call c pred now data = none → oracleStep c pred now data = c) := by
  have habort : ∀ (hyp : Prop),
      (∀ c' req, oracle_on_call c pred now data = some (c', req) → hyp → False) →
      (hyp → oracle_on_call c pred now data = none) := by
    intro hyp hcontra hh
    cases hoc : oracle_on_call c pred now data with
    | none => rfl
    | some x =>
      obtain ⟨c', req⟩ := x
      exact absurd hh (fun hh2 => hcontra c' req hoc hh2)
  refine ⟨?_, ?_, ?_, ?_, ?_, ?_, ?_, ?_⟩
  · refine habort _ (fun c' req hoc hne => ?_)
    obtain ⟨hp, -⟩ := oracle_ok_preconditions c pred now data c' req hoc
    exact hne hp
  · refine habort _ (fun c' req hoc hgt => ?_)
    obtain ⟨-, hp, -⟩ := oracle_ok_preconditions c pred now data c' req hoc
    omega
  · refine habort _ (fun c' req hoc hgt => ?_)
    obtain ⟨-, -, hp, -⟩ := oracle_ok_preconditions c pred now data c' req hoc
    omega
  · refine habort _ (fun c' req hoc hgt => ?_)
    obtain ⟨-, -, -, hp, -⟩ := oracle_ok_preconditions c pred now data c' req hoc
    omega
  · refine habort _ (fun c' req hoc hz => ?_)
    obtain ⟨-, -, -, -, ⟨r, hr, hrpos⟩, -⟩ :=
      oracle_ok_preconditions c pred now data c' req hoc
    rw [hz] at hr
    cases hr
    omega
  · refine habort _ (fun c' req hoc hn => ?_)
    obtain ⟨-, -, -, -, -, ⟨p, hp⟩, -⟩ :=
      oracle_ok_preconditions c pred now data c' req hoc
    rw [hn] at hp
    cases hp
  · refine habort _ (fun c' req hoc hn => ?_)
    obtain ⟨-, -, -, -, -, -, ⟨p, hp⟩⟩ :=
      oracle_ok_preconditions c pred now data c' req hoc
    rw [hn] at hp
    cases hp
  · intro hnone
    unfold oracleStep
    rw [hnone]

/-- C5 witness: the stale-bundle arm applied to a concrete state, plus the
no-mutation arm at that input. -/
theorem oracle_on_call_precondition_aborts_witness :
    oracle_on_call witnessContract "orc" 20000000000 staleData = none ∧
    oracleStep witnessContract "orc" 20000000000 staleData = witnessContract := by
  have h1 :=
    (oracle_on_call_precondition_aborts witnessContract "orc" 20000000000
      staleData).2.2.2.1 (by decide)
  exact ⟨h1,
    (oracle_on_call_precondition_aborts witnessContract "orc" 20000000000
      staleData).2.2.2.2.2.2.2 h1⟩

/-- C6: get_near_reward_for_distribution releases all of available_rewards
once the elapsed time reaches full_rewards_duration, and otherwise releases
floor(available_rewards * elapsed / full_rewards_duration); in particular
with full_rewards_duration = 259200, available_rewards = 900 and elapsed =
86400 it releases 300. -/
theorem get_near_reward_time_decay (c : Contract) (now : Nat)
    (hfit : c.available_rewards < U128_LIMIT)
    (hnow : c.last_reward_distribution ≤ now) :
    (c.full_rewards_duration ≤ now - c.last_reward_distribution →
      get_near_reward_for_distribution c now = some c.available_rewards) ∧
    (now - c.last_reward_distribution < c.full_rewards_duration →
      get_near_reward_for_distribution c now =
        some (c.available_rewards * (now - c.last_reward_distribution) /
          c.full_rewards_duration)) ∧
    get_near_reward_for_distribution decayC0 86400 = some 300 := by
  refine ⟨?_, ?_, by decide⟩
  · intro hfull
    unfold get_near_reward_for_distribution
    rw [if_neg (by omega)]
    simp only []
    rw [if_pos hfull]
  · intro hpart
    unfold get_near_reward_for_distribution
    rw [if_neg (by omega)]
    simp only []
    rw [if_neg (by omega)]
    apply ratioU128_eq_some
    · omega
    · calc c.available_rewards * (now - c.last_reward_distribution) /
            c.full_rewards_duration
          ≤ c.available_rewards * c.full_rewards_duration /
            c.full_rewards_duration := by
            apply Nat.div_le_div_right
            exact Nat.mul_le_mul_left _ (by omega)
        _ = c.available_rewards := Nat.mul_div_cancel c.available_rewards (by omega)
        _ < U128_LIMIT := hfit

/-- C6 witness: the partial-ramp arm applied at the concrete scenario. -/
theorem get_near_reward_time_decay_witness :
    get_near_reward_for_distribution decayC0 86400 =
      some (decayC0.available_rewards * (86400 - decayC0.last_reward_distribution) /
        decayC0.full_rewards_duration) :=
  (get_near_reward_time_decay decayC0 86400 (by decide) (by decide)).2.1 (by decide)

/-- C7: on_withdraw aborts without mutating the ledger when the withdrawal
promise failed; on success it adds the withdrawn amount to rewards_received
and available_rewards, leaves every other field unchanged, and issues a
fresh unstake-all request exactly when unstake_all was set. -/
theorem on_withdraw_spec (c : Contract) (a : Nat) (ua : Bool) :
    on_withdraw c false a ua = none ∧
    ∃ c' issued, on_withdraw c true a ua = some (c', issued) ∧
      c'.rewards_received = c.rewards_received + a ∧
      c'.available_rewards = c.available_rewards + a ∧
      c'.last_reward_distribution = c.last_reward_distribution ∧
      c'.farm_duration = c.farm_duration ∧
      c'.full_rewards_duration = c.full_rewards_duration ∧
      c'.usn_distributed = c.usn_distributed ∧
      c'.wrapped_amount = c.wrapped_amount ∧
      c'.swap_path = c.swap_path ∧
      c'.staking_pool_account_id = c.staking_pool_account_id ∧
      c'.owner_id = c.owner_id ∧
      c'.usn_contract_id = c.usn_contract_id ∧
      c'.oracle_contract_id = c.oracle_contract_id ∧
      c'.ref_finance_contract_id = c.ref_finance_contract_id ∧
      c'.wrap_near_contract_id = c.wrap_near_contract_id ∧
      c'.farm_id = c.farm_id ∧
      issued = ua := by
  refine ⟨rfl,
    { c with
      rewards_received := c.rewards_received + a
      available_rewards := c.available_rewards + a },
    ua, rfl, ?_⟩
  refine ⟨rfl, rfl, rfl, rfl, rfl, rfl, rfl, rfl, rfl, rfl, rfl, rfl, rfl, rfl, rfl, rfl⟩

/-- C8: a harvest snapshot with zero unstaked and zero staked balance leaves
the persisted state untouched and issues no follow-up request. -/
theorem on_get_account_zero_noop (c : Contract) (cw : Bool) :
    (on_get_account c 0 0 cw).1 = c ∧
    (on_get_account c 0 0 cw).2 = HarvestAction.nothing := by
  exact ⟨on_get_account_fst c 0 0 cw, rfl⟩

/-- Swap-path validity only reads the path, the wrapped-native id and the
reward-token id. -/
theorem assert_valid_congr (c c' : Contract)
    (hp : c'.swap_path = c.swap_path)
    (hw : c'.wrap_near_contract_id = c.wrap_near_contract_id)
    (hu : c'.usn_contract_id = c.usn_contract_id) :
    assert_valid_swap_path c' = assert_valid_swap_path c := by
  unfold assert_valid_swap_path
  rw [hp, hw, hu]

/-- C9: the persisted swap path is valid after construction and after every
set_swap_path (both reject a violating path), oracle_on_call never touches
the stored path (the slippage floor is written only on the returned clone),
and validity means exactly: first hop swaps in the wrapped-native token,
last hop swaps out the reward token, and every stored floor is zero. -/
theorem swap_path_invariant_spec :
    (∀ sp o u fid orc rf wr path c,
       Contract.new sp o u fid orc rf wr path = some c →
       assert_valid_swap_path c = true) ∧
    (∀ (c : Contract) (p : String) (path : List SwapAction) (c' : Contract),
       set_swap_path c p path = some c' → assert_valid_swap_path c' = true) ∧
    (∀ (c : Contract) (p : String) (path : List SwapAction),
       assert_valid_swap_path { c with swap_path := path } = false →
       set_swap_path c p path = none) ∧
    (∀ (c : Contract) (pred : String) (now : Nat) (data : PriceData)
       (c' : Contract) (req : SwapRequest),
       oracle_on_call c pred now data = some (c', req) →
       c'.swap_path = c.swap_path ∧
       req.actions = setLastMinAmountOut c.swap_path req.min_amount_out ∧
       assert_valid_swap_path c' = assert_valid_swap_path c) ∧
    (∀ (c : Contract) (f l : SwapAction),
       c.swap_path.head? = some f → c.swap_path.getLast? = some l →
       (assert_valid_swap_path c = true ↔
         f.token_in = c.wrap_near_contract_id ∧
         l.token_out = c.usn_contract_id ∧
         ∀ a ∈ c.swap_path, a.min_amount_out = 0)) := by
  refine ⟨?_, ?_, ?_, ?_, ?_⟩
  · intro sp o u fid orc rf wr path c h
    unfold Contract.new at h
    simp only [] at h
    split at h
    next hval =>
      cases h
      exact hval
    · cases h
  · intro c p path c' h
    unfold set_swap_path at h
    split at h
    · simp only [] at h
      split at h
      next hval =>
        cases h
        exact hval
      · cases h
    · cases h
  · intro c p path h
    unfold set_swap_path
    split
    · simp only [h]
      rfl
    · rfl
  · intro c pred now data c' req h
    obtain ⟨hrew, hpos, havail, hlast, hwa, hwr, hrr, hsp, husn, hwnear, hrest⟩ :=
      oracle_ok_spec _ _ _ _ _ _ h
    refine ⟨hsp, ?_, assert_valid_congr c c' hsp hwnear husn⟩
    exact hrest.2.2.2.2
  · intro c f l hf hl
    unfold assert_valid_swap_path
    rw [hf, hl]
    simp only [Bool.and_eq_true, beq_iff_eq, List.all_eq_true]
    tauto

/-- C9 witness: validity of the freshly constructed path, and the
characterization at that path. -/
theorem swap_path_invariant_spec_witness :
    assert_valid_swap_path witnessContract = true :=
  swap_path_invariant_spec.1 "pool" "owner" "usn" 0 "orc" "ref" "wrap"
    [⟨0, "wrap", "usn", 0⟩] witnessContract (by decide)

/-- C10: when the block timestamp is at least last_reward_distribution, the
released reward never exceeds available_rewards, so the optimistic deduction
in oracle_on_call is an exact subtraction (no underflow): the committed
reward and the post-commit available_rewards add back to the pre-commit
value. -/
theorem released_reward_le_available (c : Contract) (now : Nat)
    (_hnow : c.last_reward_distribution ≤ now) :
    (∀ r, get_near_reward_for_distribution c now = some r →
       r ≤ c.available_rewards) ∧
    (∀ (pred : String) (data : PriceData) (c' : Contract) (req : SwapRequest),
       oracle_on_call c pred now data = some (c', req) →
       c'.available_rewards + req.reward = c.available_rewards) := by
  constructor
  · intro r h
    exact getNearReward_le c now r h
  · intro pred data c' req h
    obtain ⟨hrew, hpos, havail, hrest⟩ := oracle_ok_spec _ _ _ _ _ _ h
    have hle := getNearReward_le _ _ _ hrew
    omega

/-- C10 witness: at the concrete decay scenario the released 300 is at most
the 900 available. -/
theorem released_reward_le_available_witness :
    (300 : Nat) ≤ decayC0.available_rewards :=
  (released_reward_le_available decayC0 86400 (by decide)).1 300 (by decide)
